import Mathlib

/-!
Verification of the offset-translation utility (`MessageEntity.adjust_message_entities_to_utf_16`
in `telegram/_messageentity.py`) and the polymorphic paid-media decoder
(`PaidMedia.de_json` and its variants in `telegram/_paidmedia.py`).

Texts are modelled as lists of Unicode scalar values (`List Char`); JSON data as a small
inductive value type with objects as association lists.
-/

/-! ## JSON model -/

/-- A JSON value. Objects are association lists of string keys. -/
inductive JValue where
  | null : JValue
  | bool : Bool → JValue
  | num : Int → JValue
  | str : String → JValue
  | arr : List JValue → JValue
  | obj : List (String × JValue) → JValue

/-- A JSON object, as passed to the `de_json` classmethods (Python `JSONDict`). -/
abbrev JObj := List (String × JValue)

/-- `data.get(k)` on a JSON object. -/
def jGet (d : JObj) (k : String) : Option JValue :=
  d.lookup k

/-- `data.pop(k)`: the object with the binding for `k` removed. -/
def jPop (d : JObj) (k : String) : JObj :=
  d.eraseP (fun kv => kv.1 == k)

/-- Fetch a field that is expected to be a string. -/
def jGetStr (d : JObj) (k : String) : Option String :=
  match jGet d k with
  | some (JValue.str s) => some s
  | _ => none

/-- Fetch a field that is expected to be an integer. -/
def jGetInt (d : JObj) (k : String) : Option Int :=
  match jGet d k with
  | some (JValue.num n) => some n
  | _ => none

/-! ## Paid media data model (`telegram/_paidmedia.py`) -/

/-- Modelled from the spec: `telegram.PhotoSize` is not part of the covered sources; the spec
only requires an ordered sequence of "size-variant image descriptors", so a descriptor keeps
the decoded JSON fields. -/
structure PhotoSize where
  fields : JObj

/-- Modelled from the spec: `telegram.Video` is not part of the covered sources; a single
"video descriptor" keeping the decoded JSON fields. -/
structure Video where
  fields : JObj

/-- Modelled from the spec: `PhotoSize.de_json` decodes one size-descriptor sub-object from a
JSON mapping; non-mapping input is a decode failure. -/
def PhotoSizeDeJson : JValue → Option PhotoSize
  | JValue.obj fields => some ⟨fields⟩
  | _ => none

/-- Modelled from the spec: `PhotoSize.de_list` — empty or absent input yields the empty
sequence, a JSON array is decoded elementwise (collaborator contract: normalize a sequence,
defaulting to empty when input is null); a non-array value is a decode failure. -/
def PhotoSizeDeList : Option JValue → Option (List PhotoSize)
  | none => some []
  | some JValue.null => some []
  | some (JValue.arr l) => some (l.filterMap PhotoSizeDeJson)
  | some _ => none

/-- Modelled from the spec: `Video.de_json` decodes one video descriptor from a JSON mapping;
absent or null input yields null, non-mapping input is a decode failure. -/
def VideoDeJson : Option JValue → Option Video
  | some (JValue.obj fields) => some ⟨fields⟩
  | _ => none

/-- `constants.PaidMediaType.PREVIEW`. -/
def PaidMedia.PREVIEW : String := "preview"

/-- `constants.PaidMediaType.PHOTO`. -/
def PaidMedia.PHOTO : String := "photo"

/-- `constants.PaidMediaType.VIDEO`. -/
def PaidMedia.VIDEO : String := "video"

/-- Modelled from the spec: `enum.get_member(constants.PaidMediaType, type, type)` — the
enum-coercion helper maps a string to the matching known constant when possible and falls
back to the raw string otherwise. -/
def paidMediaTypeCoerce (s : String) : String :=
  if s = PaidMedia.PREVIEW then PaidMedia.PREVIEW
  else if s = PaidMedia.PHOTO then PaidMedia.PHOTO
  else if s = PaidMedia.VIDEO then PaidMedia.VIDEO
  else s

/-- The base `PaidMedia` shape: only the `type` attribute. -/
structure PaidMediaBaseObj where
  type : String
deriving DecidableEq

/-- `PaidMedia.__init__(type)`: stores the coerced discriminator. -/
def PaidMediaMk (t : String) : PaidMediaBaseObj :=
  { type := paidMediaTypeCoerce t }

/-- The `PaidMediaPreview` shape. -/
structure PaidMediaPreviewObj where
  type : String
  width : Option Int
  height : Option Int
  duration : Option Int
deriving DecidableEq

/-- `PaidMediaPreview.__init__(width, height, duration)`: the type is fixed to
`PaidMedia.PREVIEW` by the call to `super().__init__`; no `type` parameter exists. -/
def PaidMediaPreviewMk (width height duration : Option Int) : PaidMediaPreviewObj :=
  { type := paidMediaTypeCoerce PaidMedia.PREVIEW
    width := width, height := height, duration := duration }

/-- The `PaidMediaPhoto` shape; `photo` is the immutable tuple of size descriptors. -/
structure PaidMediaPhotoObj where
  type : String
  photo : List PhotoSize

/-- `PaidMediaPhoto.__init__(photo)`: the type is fixed to `PaidMedia.PHOTO`;
`parse_sequence_arg` turns the sequence into an immutable tuple (here: the list itself). -/
def PaidMediaPhotoMk (photo : List PhotoSize) : PaidMediaPhotoObj :=
  { type := paidMediaTypeCoerce PaidMedia.PHOTO, photo := photo }

/-- The `PaidMediaVideo` shape.  The `video` attribute is optional here because at runtime
`PaidMediaVideo.de_json` stores whatever `Video.de_json` returned, which may be `None`. -/
structure PaidMediaVideoObj where
  type : String
  video : Option Video

/-- `PaidMediaVideo.__init__(video)`: the type is fixed to `PaidMedia.VIDEO`. -/
def PaidMediaVideoMk (video : Option Video) : PaidMediaVideoObj :=
  { type := paidMediaTypeCoerce PaidMedia.VIDEO, video := video }

/-- The union of runtime shapes a `PaidMedia.de_json` call can produce. -/
inductive PaidMediaObj where
  | base : PaidMediaBaseObj → PaidMediaObj
  | preview : PaidMediaPreviewObj → PaidMediaObj
  | photo : PaidMediaPhotoObj → PaidMediaObj
  | video : PaidMediaVideoObj → PaidMediaObj

/-- Modelled from the spec: the collaborator base (`TelegramObject.de_json`) parses the
mapping and constructs the target class from its fields; it returns null only for null
input.  Constructing the base `PaidMedia` requires the `type` string (it is the single
required constructor argument), so a mapping without a string `type` is a decode failure. -/
def PaidMediaBaseConstruct (d : JObj) : Option PaidMediaBaseObj :=
  (jGetStr d ("type")).map PaidMediaMk

/-- `PaidMedia.de_json` as inherited by `PaidMediaPreview` (which defines no override):
the `data is None` check returns null; the empty-mapping check and the dispatch table are
guarded by `cls is PaidMedia` and hence skipped; the call falls through to the collaborator
base, which constructs a `PaidMediaPreview` from the optional primitive fields. -/
def PaidMediaPreviewDeJson (data : Option JObj) : Option PaidMediaPreviewObj :=
  match data with
  | none => none
  | some d =>
      some (PaidMediaPreviewMk (jGetInt d ("width")) (jGetInt d ("height"))
        (jGetInt d ("duration")))

/-- `PaidMediaPhoto.de_json`: null or empty data returns null; otherwise the `photo` field
is decoded with `PhotoSize.de_list` and the instance is constructed. -/
def PaidMediaPhotoDeJson (data : Option JObj) : Option PaidMediaPhotoObj :=
  match data with
  | none => none
  | some d =>
      if d.isEmpty then none
      else (PhotoSizeDeList (jGet d ("photo"))).map PaidMediaPhotoMk

/-- `PaidMediaVideo.de_json`: null or empty data returns null; otherwise the `video` field
is decoded with `Video.de_json` and the instance is constructed. -/
def PaidMediaVideoDeJson (data : Option JObj) : Option PaidMediaVideoObj :=
  match data with
  | none => none
  | some d =>
      if d.isEmpty then none
      else some (PaidMediaVideoMk (VideoDeJson (jGet d ("video"))))

/-- `PaidMedia.de_json` called on the abstract base class: null data returns null; empty
data returns null (`if not data and cls is PaidMedia`); a recognized `type` discriminator is
popped and the matching concrete decode path is invoked; otherwise the generic base shape is
constructed (carrying the raw `type` string). -/
def PaidMediaDeJson (data : Option JObj) : Option PaidMediaObj :=
  match data with
  | none => none
  | some d =>
      if d.isEmpty then none
      else
        match jGet d ("type") with
        | some (JValue.str t) =>
            if t = PaidMedia.PREVIEW then
              (PaidMediaPreviewDeJson (some (jPop d ("type")))).map PaidMediaObj.preview
            else if t = PaidMedia.PHOTO then
              (PaidMediaPhotoDeJson (some (jPop d ("type")))).map PaidMediaObj.photo
            else if t = PaidMedia.VIDEO then
              (PaidMediaVideoDeJson (some (jPop d ("type")))).map PaidMediaObj.video
            else (PaidMediaBaseConstruct d).map PaidMediaObj.base
        | _ => (PaidMediaBaseConstruct d).map PaidMediaObj.base

/-- `_id_attrs` of `PaidMediaPhoto`: `(self.type, self.photo)`. -/
def PaidMediaPhotoObj.idAttrs (x : PaidMediaPhotoObj) : String × List PhotoSize :=
  (x.type, x.photo)

/-- Modelled from the spec: equality of two `PaidMediaPhoto` instances compares their
`_id_attrs` tuples (the variant's distinguishing field plus the shared type tag). -/
def paidMediaPhotoEqual (a b : PaidMediaPhotoObj) : Prop :=
  a.idAttrs = b.idAttrs

/-! ## Message entities (`telegram/_messageentity.py`) -/

/-- Modelled from the spec: `telegram.User` is not part of the covered sources; spans only
carry "a referenced user", so an identifier stands for the full object. -/
structure User where
  id : Int
deriving DecidableEq, Repr

/-- One text span (`telegram.MessageEntity`): a kind tag, a position, and the
kind-specific optional payload fields. -/
structure MessageEntity where
  type : String
  offset : Nat
  length : Nat
  url : Option String := none
  user : Option User := none
  language : Option String := none
  custom_emoji_id : Option String := none
deriving DecidableEq, Repr

/-- `constants.MessageEntityType.BOLD`. -/
def MessageEntity.BOLD : String := "bold"

/-- `constants.MessageEntityType.ITALIC`. -/
def MessageEntity.ITALIC : String := "italic"

/-- `constants.MessageEntityType.UNDERLINE`. -/
def MessageEntity.UNDERLINE : String := "underline"

/-- Number of UTF-16 code units of one scalar value: scalars beyond the Basic Multilingual
Plane need a surrogate pair (`len(c.encode("utf-16-le")) // 2`). -/
def charUtf16Len (c : Char) : Nat :=
  if c.val < 65536 then 1 else 2

/-- `len(s.encode("utf-16-le")) // 2`: UTF-16 code-unit count of a scalar sequence. -/
def utf16Len (s : List Char) : Nat :=
  (s.map charUtf16Len).sum

/-- Python slicing `s[a:b]` for non-negative indices: out-of-range bounds are clamped. -/
def pySlice (s : List Char) (a b : Nat) : List Char :=
  (s.take b).drop a

/-- Line 198: `sorted(itertools.chain(*((x.offset, x.offset + x.length) for x in entities)))`. -/
def boundaryPositions (entities : List MessageEntity) : List Nat :=
  List.insertionSort (· ≤ ·)
    ((entities.map (fun e => [e.offset, e.offset + e.length])).flatten)

/-- Lines 199-207: walk the sorted positions, accumulate the UTF-16 length of each slice
`text[last_position:position]`, and record `position -> accumulated_length`.  The Python
dict is modelled as an association list; a repeated position appends a second binding with
the same value (the empty slice contributes nothing), matching the dict overwrite. -/
def buildTranslation (text : List Char) : Nat → Nat → List Nat → List (Nat × Nat)
  | _, _, [] => []
  | last, acc, p :: rest =>
      (p, acc + utf16Len (pySlice text last p)) ::
        buildTranslation text p (acc + utf16Len (pySlice text last p)) rest

/-- The `position_translation` mapping of lines 202-207. -/
def positionTranslation (text : List Char) (entities : List MessageEntity) :
    List (Nat × Nat) :=
  buildTranslation text 0 0 (boundaryPositions entities)

/-- Lines 209-219: build the output entity list; each entity is shallow-copied with its
offset and length replaced by the translated values.  A missing key in the mapping (Python
`KeyError`) is modelled as `none`. -/
def adjustLoop (transl : List (Nat × Nat)) : List MessageEntity → Option (List MessageEntity)
  | [] => some []
  | e :: rest =>
      match transl.lookup e.offset, transl.lookup (e.offset + e.length) with
      | some ts, some te =>
          (adjustLoop transl rest).map
            (fun out => { e with offset := ts, length := te - ts } :: out)
      | _, _ => none

/-- `MessageEntity.adjust_message_entities_to_utf_16(text, entities)`. -/
def adjustMessageEntitiesToUtf16 (text : List Char) (entities : List MessageEntity) :
    Option (List MessageEntity) :=
  adjustLoop (positionTranslation text entities) entities

/-- The translated value of one boundary position: the UTF-16 code-unit count of the prefix
of the text up to that scalar position (clamped at the end of the text). -/
def translatePosition (text : List Char) (p : Nat) : Nat :=
  utf16Len (text.take p)

/-! ## Helper lemmas for the offset translator -/

theorem utf16Len_append (a b : List Char) :
    utf16Len (a ++ b) = utf16Len a + utf16Len b := by
  simp [utf16Len]

theorem length_le_utf16Len (s : List Char) : s.length ≤ utf16Len s := by
  induction s with
  | nil => simp [utf16Len]
  | cons c t ih =>
      have hc : 1 ≤ charUtf16Len c := by
        unfold charUtf16Len; split <;> omega
      simp only [utf16Len, List.map_cons, List.sum_cons, List.length_cons] at *
      omega

theorem utf16Len_eq_length_of_bmp (s : List Char) (h : ∀ c ∈ s, c.val < 65536) :
    utf16Len s = s.length := by
  induction s with
  | nil => simp [utf16Len]
  | cons c t ih =>
      have hc : charUtf16Len c = 1 := by
        unfold charUtf16Len
        rw [if_pos (h c (by simp))]
      simp only [utf16Len, List.map_cons, List.sum_cons, List.length_cons] at *
      rw [hc, ih (fun x hx => h x (by simp [hx]))]
      omega

/-- Additivity of cumulative UTF-16 lengths across a slice boundary. -/
theorem utf16Len_take_add (text : List Char) (a b : Nat) (h : a ≤ b) :
    utf16Len (text.take a) + utf16Len (pySlice text a b) = utf16Len (text.take b) := by
  have h1 : (text.take b).take a = text.take a := by
    rw [List.take_take, Nat.min_eq_left h]
  calc utf16Len (text.take a) + utf16Len (pySlice text a b)
      = utf16Len ((text.take b).take a) + utf16Len ((text.take b).drop a) := by
        rw [h1]; rfl
    _ = utf16Len ((text.take b).take a ++ (text.take b).drop a) :=
        (utf16Len_append _ _).symm
    _ = utf16Len (text.take b) := by rw [List.take_append_drop]

theorem translatePosition_mono (text : List Char) (p q : Nat) (h : p ≤ q) :
    translatePosition text p ≤ translatePosition text q := by
  unfold translatePosition
  rw [← utf16Len_take_add text p q h]
  exact Nat.le_add_right _ _

/-- Every value recorded by the walk over a sorted position list is the cumulative UTF-16
length of the text prefix up to the recorded position. -/
theorem buildTranslation_values (text : List Char) (ps : List Nat) :
    ∀ last acc : Nat, List.Sorted (· ≤ ·) ps → (∀ q ∈ ps, last ≤ q) →
      acc = utf16Len (text.take last) →
      ∀ pv ∈ buildTranslation text last acc ps, pv.2 = utf16Len (text.take pv.1) := by
  induction ps with
  | nil =>
      intro last acc _ _ _ pv hpv
      simp [buildTranslation] at hpv
  | cons p rest ih =>
      intro last acc hs hlb hacc pv hpv
      rw [List.sorted_cons] at hs
      have hlp : last ≤ p := hlb p (by simp)
      have hacc2 : acc + utf16Len (pySlice text last p) = utf16Len (text.take p) := by
        rw [hacc]
        exact utf16Len_take_add text last p hlp
      simp only [buildTranslation, List.mem_cons] at hpv
      rcases hpv with h | h
      · rw [h]
        exact hacc2
      · exact ih p _ hs.2 hs.1 hacc2 pv h

theorem buildTranslation_keys (text : List Char) (ps : List Nat) :
    ∀ last acc : Nat, (buildTranslation text last acc ps).map Prod.fst = ps := by
  induction ps with
  | nil => intro last acc; rfl
  | cons p rest ih =>
      intro last acc
      simp only [buildTranslation, List.map_cons, ih]

/-- Association-list lookup on a list whose values are determined by the keys. -/
theorem lookup_of_values (f : Nat → Nat) (l : List (Nat × Nat))
    (hv : ∀ pv ∈ l, pv.2 = f pv.1) (p : Nat) (hp : p ∈ l.map Prod.fst) :
    l.lookup p = some (f p) := by
  induction l with
  | nil => simp at hp
  | cons a rest ih =>
      rcases a with ⟨k, v⟩
      by_cases hk : p = k
      · have hval : v = f k := hv (k, v) (by simp)
        subst hk
        simp [List.lookup, hval]
      · have hkb : (p == k) = false := by
          simp [hk]
        simp only [List.lookup, hkb]
        have hp2 : p ∈ rest.map Prod.fst := by
          simp only [List.map_cons, List.mem_cons] at hp
          rcases hp with h | h
          · exact absurd h hk
          · exact h
        exact ih (fun pv hpv => hv pv (by simp [hpv])) hp2

/-- Looking up any boundary position of the entity list in the `position_translation`
mapping yields the cumulative UTF-16 length of the prefix up to that position. -/
theorem translation_lookup (text : List Char) (entities : List MessageEntity) (p : Nat)
    (hp : p ∈ (entities.map (fun e => [e.offset, e.offset + e.length])).flatten) :
    (positionTranslation text entities).lookup p = some (translatePosition text p) := by
  unfold positionTranslation
  apply lookup_of_values
  · apply buildTranslation_values text (boundaryPositions entities) 0 0
    · exact List.sorted_insertionSort _ _
    · intro q _
      exact Nat.zero_le q
    · simp [utf16Len]
  · rw [buildTranslation_keys]
    unfold boundaryPositions
    exact (List.mem_insertionSort _).2 hp

/-- The output loop maps each entity to its shallow copy with translated positions, as soon
as both boundary lookups succeed with the values of a common translation function. -/
theorem adjustLoop_eq_map (transl : List (Nat × Nat)) (f : Nat → Nat)
    (es : List MessageEntity)
    (h : ∀ e ∈ es, transl.lookup e.offset = some (f e.offset) ∧
      transl.lookup (e.offset + e.length) = some (f (e.offset + e.length))) :
    adjustLoop transl es = some (es.map (fun e =>
      { e with offset := f e.offset, length := f (e.offset + e.length) - f e.offset })) := by
  induction es with
  | nil => rfl
  | cons e rest ih =>
      have he := h e (by simp)
      simp only [adjustLoop, he.1, he.2, List.map_cons]
      rw [ih (fun x hx => h x (by simp [hx]))]
      rfl

/-- Master description of `adjust_message_entities_to_utf_16`: it never fails, and each
output entity is the input entity with its offset and end boundary translated through
`translatePosition` (UTF-16 prefix lengths, boundaries beyond the text clamped). -/
theorem adjust_eq_map_translate (text : List Char) (es : List MessageEntity) :
    adjustMessageEntitiesToUtf16 text es = some (es.map (fun e =>
      { e with offset := translatePosition text e.offset,
               length := translatePosition text (e.offset + e.length) -
                 translatePosition text e.offset })) := by
  unfold adjustMessageEntitiesToUtf16
  apply adjustLoop_eq_map
  intro e he
  constructor
  · exact translation_lookup text es e.offset
      (List.mem_flatten.2 ⟨[e.offset, e.offset + e.length],
        List.mem_map_of_mem _ he, by simp⟩)
  · exact translation_lookup text es (e.offset + e.length)
      (List.mem_flatten.2 ⟨[e.offset, e.offset + e.length],
        List.mem_map_of_mem _ he, by simp⟩)

theorem map_id_of_mem {α : Type} {l : List α} {f : α → α} (h : ∀ a ∈ l, f a = a) :
    l.map f = l := by
  induction l with
  | nil => rfl
  | cons a t ih =>
      rw [List.map_cons, h a (by simp), ih (fun x hx => h x (by simp [hx]))]

theorem forall2_map_self {α : Type} (l : List α) (g : α → α) (r : α → α → Prop)
    (h : ∀ a ∈ l, r a (g a)) : List.Forall₂ r l (l.map g) := by
  induction l with
  | nil => exact List.Forall₂.nil
  | cons a t ih =>
      exact List.Forall₂.cons (h a (by simp)) (ih (fun x hx => h x (by simp [hx])))

/-! ## Claims about the offset translator -/

/-- C1: for every text and every sequence of spans whose boundaries lie within the text,
`adjust_message_entities_to_utf_16` returns, for each input span, a span whose offset is the
UTF-16 code-unit count of the prefix of the text up to the original scalar offset, and whose
length is the translated end minus the translated start, which equals the UTF-16 code-unit
count of the text between scalar positions offset and offset+length. -/
theorem adjust_translates_boundaries (text : List Char) (es : List MessageEntity)
    (_hin : ∀ e ∈ es, e.offset + e.length ≤ text.length) :
    adjustMessageEntitiesToUtf16 text es = some (es.map (fun e =>
      { e with offset := utf16Len (text.take e.offset),
               length := utf16Len (text.take (e.offset + e.length)) -
                 utf16Len (text.take e.offset) })) ∧
    ∀ e ∈ es, utf16Len (text.take (e.offset + e.length)) - utf16Len (text.take e.offset) =
      utf16Len (pySlice text e.offset (e.offset + e.length)) := by
  constructor
  · exact adjust_eq_map_translate text es
  · intro e _
    have hadd := utf16Len_take_add text e.offset (e.offset + e.length) (Nat.le_add_right _ _)
    omega

/-- C1 witness: a concrete in-range instance, `"ab𝄢c"` with a span from scalar 1 to 4. -/
theorem adjust_translates_boundaries_witness :
    adjustMessageEntitiesToUtf16 (("ab𝄢c").data)
      [{ type := MessageEntity.BOLD, offset := 1, length := 3 }] =
      some [{ type := MessageEntity.BOLD, offset := 1, length := 4 }] := by
  have h := (adjust_translates_boundaries (("ab𝄢c").data)
    [{ type := MessageEntity.BOLD, offset := 1, length := 3 }] (by decide)).1
  rw [h]
  decide

/-- C2 counterexample: a span whose `offset+length` exceeds the text length does not make
the function fail: Python slicing clamps out-of-range bounds, every boundary is a key of
the translation mapping, and a clamped result is returned (`"a"` with span (0,5) yields the
span (0,1)). -/
theorem adjust_out_of_range_counterexample :
    adjustMessageEntitiesToUtf16 ['a']
        [{ type := MessageEntity.BOLD, offset := 0, length := 5 }] =
      some [{ type := MessageEntity.BOLD, offset := 0, length := 1 }] ∧
    adjustMessageEntitiesToUtf16 ['a']
        [{ type := MessageEntity.BOLD, offset := 0, length := 5 }] ≠ none := by
  decide

/-- C2 amended: on a span list containing spans whose `offset+length` exceeds the text
length the function does not fail and does not raise; every boundary, in range or not, is
translated to the UTF-16 code-unit count of the prefix up to that boundary with clamping at
the end of the text, and the spans so translated are returned. -/
theorem adjust_total_clamped (text : List Char) (es : List MessageEntity) :
    adjustMessageEntitiesToUtf16 text es = some (es.map (fun e =>
      { e with offset := translatePosition text e.offset,
               length := translatePosition text (e.offset + e.length) -
                 translatePosition text e.offset })) :=
  adjust_eq_map_translate text es

/-- The text of the worked example in the docstring of
`adjust_message_entities_to_utf_16`. -/
def exampleText : String := "𠌕 bold 𝄢 italic underlined: 𝛙𝌢𑁍"

/-- C5: the docstring example: spans (2,4,BOLD), (9,6,ITALIC), (28,3,UNDERLINE) over the
example text translate to (3,4,BOLD), (11,6,ITALIC), (30,6,UNDERLINE), in that order. -/
theorem adjust_concrete_example :
    adjustMessageEntitiesToUtf16 exampleText.data
      [{ type := MessageEntity.BOLD, offset := 2, length := 4 },
       { type := MessageEntity.ITALIC, offset := 9, length := 6 },
       { type := MessageEntity.UNDERLINE, offset := 28, length := 3 }] =
      some [{ type := MessageEntity.BOLD, offset := 3, length := 4 },
            { type := MessageEntity.ITALIC, offset := 11, length := 6 },
            { type := MessageEntity.UNDERLINE, offset := 30, length := 6 }] := by
  decide

/-- C6: for a text whose code points all lie in the Basic Multilingual Plane and spans with
in-range boundaries, the translation leaves every offset and length unchanged: the function
returns the input spans. -/
theorem adjust_bmp_identity (text : List Char) (es : List MessageEntity)
    (hbmp : ∀ c ∈ text, c.val < 65536)
    (hin : ∀ e ∈ es, e.offset + e.length ≤ text.length) :
    adjustMessageEntitiesToUtf16 text es = some es := by
  rw [adjust_eq_map_translate]
  congr 1
  apply map_id_of_mem
  intro e he
  have ht : ∀ p, p ≤ text.length → translatePosition text p = p := by
    intro p hp
    unfold translatePosition
    rw [utf16Len_eq_length_of_bmp _ (fun c hc => hbmp c (List.mem_of_mem_take hc)),
      List.length_take, Nat.min_eq_left hp]
  have h1 : e.offset ≤ text.length := le_trans (Nat.le_add_right _ _) (hin e he)
  rw [ht e.offset h1, ht (e.offset + e.length) (hin e he)]
  have h2 : e.offset + e.length - e.offset = e.length := by omega
  rw [h2]

/-- C6 witness: a concrete BMP text with an in-range span. -/
theorem adjust_bmp_identity_witness :
    adjustMessageEntitiesToUtf16 (("hello").data)
      [{ type := MessageEntity.ITALIC, offset := 1, length := 3 }] =
      some [{ type := MessageEntity.ITALIC, offset := 1, length := 3 }] :=
  adjust_bmp_identity (("hello").data)
    [{ type := MessageEntity.ITALIC, offset := 1, length := 3 }]
    (by decide) (by decide)

/-- C7: the output has the same number of spans as the input, in the same order, and each
output span keeps the kind and the auxiliary fields (url, user, language, custom_emoji_id)
of the corresponding input span; only offset and length differ.  The embedding is purely
functional, so the input spans and the input sequence are left unmodified. -/
theorem adjust_preserves_shape (text : List Char) (es : List MessageEntity) :
    ∃ out : List MessageEntity, adjustMessageEntitiesToUtf16 text es = some out ∧
      out.length = es.length ∧
      List.Forall₂ (fun a b => a.type = b.type ∧ a.url = b.url ∧ a.user = b.user ∧
        a.language = b.language ∧ a.custom_emoji_id = b.custom_emoji_id) es out := by
  refine ⟨_, adjust_eq_map_translate text es, by simp, ?_⟩
  apply forall2_map_self
  intro a _
  exact ⟨rfl, rfl, rfl, rfl, rfl⟩

/-- C10: translation only widens positions: for in-range spans each output offset and each
output length is at least the input value, and the boundary translation is monotone. -/
theorem adjust_widens (text : List Char) (es : List MessageEntity)
    (hin : ∀ e ∈ es, e.offset + e.length ≤ text.length) :
    ∃ out : List MessageEntity, adjustMessageEntitiesToUtf16 text es = some out ∧
      List.Forall₂ (fun a b => a.offset ≤ b.offset ∧ a.length ≤ b.length) es out ∧
      ∀ p q, p ≤ q → translatePosition text p ≤ translatePosition text q := by
  refine ⟨_, adjust_eq_map_translate text es, ?_, translatePosition_mono text⟩
  apply forall2_map_self
  intro e he
  constructor
  · show e.offset ≤ translatePosition text e.offset
    have h1 : e.offset ≤ text.length := le_trans (Nat.le_add_right _ _) (hin e he)
    have h2 := length_le_utf16Len (text.take e.offset)
    unfold translatePosition
    rw [List.length_take, Nat.min_eq_left h1] at h2
    exact h2
  · show e.length ≤ translatePosition text (e.offset + e.length) -
      translatePosition text e.offset
    have hadd := utf16Len_take_add text e.offset (e.offset + e.length)
      (Nat.le_add_right _ _)
    have hslice : (pySlice text e.offset (e.offset + e.length)).length = e.length := by
      unfold pySlice
      rw [List.length_drop, List.length_take, Nat.min_eq_left (hin e he)]
      omega
    have hgl := length_le_utf16Len (pySlice text e.offset (e.offset + e.length))
    rw [hslice] at hgl
    unfold translatePosition
    omega

/-- C10 witness: a concrete text with a non-BMP scalar and an in-range span. -/
theorem adjust_widens_witness :
    ∃ out : List MessageEntity, adjustMessageEntitiesToUtf16 (("a𝄢b").data)
        [{ type := MessageEntity.BOLD, offset := 0, length := 3 }] = some out ∧
      List.Forall₂ (fun a b => a.offset ≤ b.offset ∧ a.length ≤ b.length)
        ([{ type := MessageEntity.BOLD, offset := 0, length := 3 }] : List MessageEntity)
        out ∧
      ∀ p q, p ≤ q → translatePosition (("a𝄢b").data) p ≤
        translatePosition (("a𝄢b").data) q :=
  adjust_widens (("a𝄢b").data)
    [{ type := MessageEntity.BOLD, offset := 0, length := 3 }] (by decide)

/-! ## Claims about the paid-media decoder -/

theorem filterMap_photoSize (sizes : List JObj) :
    (sizes.map JValue.obj).filterMap PhotoSizeDeJson = sizes.map PhotoSize.mk := by
  induction sizes with
  | nil => rfl
  | cons a t ih => simp [PhotoSizeDeJson, ih]

/-- C3 counterexample: `PaidMediaPreview` defines no `de_json` override, so decoding the
empty mapping on this concrete variant falls through to the collaborator base and
constructs an all-empty preview instance instead of returning null. -/
theorem preview_de_json_empty_counterexample :
    PaidMediaPreviewDeJson (some []) = some (PaidMediaPreviewMk none none none) ∧
    PaidMediaPreviewDeJson (some []) ≠ none := by
  decide

/-- C3 amended: decoding null input returns null for the base entry point and every
concrete variant, and decoding the empty mapping returns null for the base entry point,
`PaidMediaPhoto` and `PaidMediaVideo`; `PaidMediaPreview`, which inherits the base decode
unchanged, instead constructs a preview instance with all optional fields absent. -/
theorem de_json_null_and_empty :
    PaidMediaDeJson none = none ∧
    PaidMediaPreviewDeJson none = none ∧
    PaidMediaPhotoDeJson none = none ∧
    PaidMediaVideoDeJson none = none ∧
    PaidMediaDeJson (some []) = none ∧
    PaidMediaPhotoDeJson (some []) = none ∧
    PaidMediaVideoDeJson (some []) = none ∧
    PaidMediaPreviewDeJson (some []) = some (PaidMediaPreviewMk none none none) :=
  ⟨rfl, rfl, rfl, rfl, rfl, rfl, rfl, rfl⟩

/-- C4: a non-empty mapping whose `type` discriminator is a string outside the recognized
set (`preview`, `photo`, `video`) decodes via the base entry point, without failing, to a
generic base instance whose type attribute carries the raw discriminator string. -/
theorem de_json_unknown_type (d : JObj) (t : String)
    (hget : jGet d ("type") = some (JValue.str t))
    (hp : t ≠ PaidMedia.PREVIEW) (hph : t ≠ PaidMedia.PHOTO) (hv : t ≠ PaidMedia.VIDEO) :
    PaidMediaDeJson (some d) = some (PaidMediaObj.base { type := t }) := by
  have hne : d.isEmpty = false := by
    cases d with
    | nil => simp [jGet] at hget
    | cons a rest => rfl
  simp only [PaidMediaDeJson, hne, Bool.false_eq_true, if_false, hget]
  rw [if_neg hp, if_neg hph, if_neg hv]
  simp only [PaidMediaBaseConstruct, jGetStr, hget]
  show some (PaidMediaObj.base (PaidMediaMk t)) = some (PaidMediaObj.base { type := t })
  have hmk : PaidMediaMk t = { type := t } := by
    simp only [PaidMediaMk, paidMediaTypeCoerce, if_neg hp, if_neg hph, if_neg hv]
  rw [hmk]

/-- C4 witness: `{"type": "sticker_unknown_future_type"}` decodes to the generic base
instance carrying exactly that string. -/
theorem de_json_unknown_type_witness :
    PaidMediaDeJson (some [(("type"), JValue.str ("sticker_unknown_future_type"))]) =
      some (PaidMediaObj.base { type := ("sticker_unknown_future_type") }) :=
  de_json_unknown_type _ _ rfl (by decide) (by decide) (by decide)

/-- C8: a mapping `{"type": "photo", "photo": [...]}` whose photo entry is a list of
sub-object mappings decodes via the base entry point to the Photo variant whose photo field
is the ordered sequence of the decoded sub-objects, and two Photo instances are equal (by
`_id_attrs`) exactly when their shared type tags and photo fields are equal. -/
theorem de_json_photo_dispatch :
    (∀ sizes : List JObj,
      PaidMediaDeJson (some [(("type"), JValue.str PaidMedia.PHOTO),
          (("photo"), JValue.arr (sizes.map JValue.obj))]) =
        some (PaidMediaObj.photo (PaidMediaPhotoMk (sizes.map PhotoSize.mk)))) ∧
    (∀ a b : PaidMediaPhotoObj,
      paidMediaPhotoEqual a b ↔ (a.type = b.type ∧ a.photo = b.photo)) := by
  constructor
  · intro sizes
    have h : PaidMediaDeJson (some [(("type"), JValue.str PaidMedia.PHOTO),
          (("photo"), JValue.arr (sizes.map JValue.obj))]) =
        some (PaidMediaObj.photo (PaidMediaPhotoMk
          ((sizes.map JValue.obj).filterMap PhotoSizeDeJson))) := rfl
    rw [h, filterMap_photoSize]
  · intro a b
    unfold paidMediaPhotoEqual PaidMediaPhotoObj.idAttrs
    rw [Prod.mk.injEq]

/-- C9: every constructed instance of a concrete paid-media variant carries that variant's
fixed discriminator constant: the concrete constructors accept no type argument and pass
the constant through the base constructor and the enum coercion. -/
theorem variant_type_forced :
    (∀ w h d : Option Int, (PaidMediaPreviewMk w h d).type = PaidMedia.PREVIEW) ∧
    (∀ ps : List PhotoSize, (PaidMediaPhotoMk ps).type = PaidMedia.PHOTO) ∧
    (∀ v : Option Video, (PaidMediaVideoMk v).type = PaidMedia.VIDEO) :=
  ⟨fun _ _ _ => rfl, fun _ => rfl, fun _ => rfl⟩
